import Mathlib

/-!
# Verification of the watch-together playback synchronization core

Shallow embedding of the server-side socket handlers
(`backend/src/socket/index.ts`), the HTTP join route
(`backend/src/routes/rooms.ts`) and the client drift corrector
(`frontend/src/services/socket.ts`).

Modelling conventions:
* JS `Map`s and plain objects used as dictionaries become association
  lists over `String` keys with `Map.set` / `Map.get` / `Map.delete`
  semantics (`astore`, `alookup`, `aerase`).
* Millisecond wall-clock timestamps (`Date.now()`) are `ℤ`; playback
  positions in seconds are `ℚ` (JS numbers; every computation the claims
  exercise is exact).
* Each socket handler becomes a pure function from the server state and
  the event's inputs (with `Date.now()` passed explicitly) to the new
  server state together with the list of emitted socket events.
-/

namespace WatchTogether

/-- Association-list lookup with JS `Map.get` semantics (first binding wins;
keys are unique in states reachable through `astore`/`aerase`). -/
def alookup {α : Type} : List (String × α) → String → Option α
  | [], _ => none
  | (k, v) :: rest, key => if key = k then some v else alookup rest key

/-- Association-list update with JS `Map.set` semantics: replace the binding
in place when the key is present, append otherwise. -/
def astore {α : Type} : List (String × α) → String → α → List (String × α)
  | [], key, v => [(key, v)]
  | (k, w) :: rest, key, v =>
      if k = key then (k, v) :: rest else (k, w) :: astore rest key v

/-- Association-list removal with JS `Map.delete` semantics. -/
def aerase {α : Type} : List (String × α) → String → List (String × α)
  | [], _ => []
  | (k, v) :: rest, key => if k = key then rest else (k, v) :: aerase rest key

/-- `PlaybackState` from `backend/src/types/index.ts`. -/
structure PlaybackState where
  url : String
  currentTime : ℚ
  isPlaying : Bool
  lastUpdated : ℤ
  videoType : String
deriving DecidableEq

/-- `ChatMessage` from `backend/src/types/index.ts`. -/
structure ChatMessage where
  id : String
  userId : String
  username : String
  message : String
  timestamp : ℤ
  clientMessageId : Option String
  imageUrl : Option String
  type : String
deriving DecidableEq

/-- `Room` from `backend/src/types/index.ts`; `bannedUntil` maps user ids to
the unix-ms instant until which they are banned. -/
structure Room where
  id : String
  code : Option String
  hostId : String
  name : String
  participants : List String
  playbackState : PlaybackState
  chatHistory : List ChatMessage
  maxParticipants : Nat
  bannedUntil : List (String × ℤ)
deriving DecidableEq

/-- `SocketUser` from `backend/src/types/index.ts`. -/
structure SocketUser where
  userId : String
  username : String
  roomId : String
  socketId : String
  isHost : Bool
  isMuted : Bool
deriving DecidableEq

/-- The two module-level maps of `backend/src/socket/index.ts`:
`rooms : Map<string, Room>` and `activeSockets : Map<string, SocketUser>`. -/
structure ServerState where
  rooms : List (String × Room)
  activeSockets : List (String × SocketUser)
deriving DecidableEq

/-- Socket emissions performed by the handlers.  `errorTo`, `roomState`,
`kicked` and `kickResult` go to a single socket; `syncState`, `userJoined`,
`chatMessage`, `userLeft` and `roomClosed` are room fan-outs. -/
inductive Event where
  | errorTo (socketId message : String)
  | syncState (roomId : String) (ps : PlaybackState) (serverTime : ℤ)
  | roomState (socketId : String) (room : Room) (participants : List SocketUser)
      (serverTime : ℤ)
  | userJoined (roomId userId username : String) (isHost : Bool) (serverTime : ℤ)
  | chatMessage (roomId : String) (msg : ChatMessage)
  | kicked (socketId message : String)
  | kickResult (socketId : String) (ok : Bool) (info : String)
  | userLeft (roomId userId username : String) (serverTime : ℤ)
  | roomClosed (roomId message : String)
deriving DecidableEq

/-! ## Client drift corrector (`frontend/src/services/socket.ts`) -/

/-- `updateServerTimeOffset`: on every received broadcast the client stores
`serverTimeOffset = Date.now() - serverTime`. -/
def updateServerTimeOffset (localReceiveTime serverTime : ℤ) : ℤ :=
  localReceiveTime - serverTime

/-- `getServerTime`: the client's estimate of current server time,
`Date.now() - serverTimeOffset`. -/
def getServerTime (localNow serverTimeOffset : ℤ) : ℤ :=
  localNow - serverTimeOffset

/-- `calculateExpectedTime`: expected playback position derived from the last
broadcast `PlaybackState`, evaluated at local time `localNow` with the stored
clock offset. -/
def calculateExpectedTime (ps : PlaybackState) (localNow serverTimeOffset : ℤ) : ℚ :=
  if ps.isPlaying then
    ps.currentTime +
      ((getServerTime localNow serverTimeOffset - ps.lastUpdated : ℤ) : ℚ) / 1000
  else
    ps.currentTime

/-- The spec's formula for `expectedPosition`:
`state.isPlaying ? positionSeconds + (estimatedServerNow - lastUpdatedAtMs)/1000
: positionSeconds` with `estimatedServerNow = localNow - serverClockOffset`. -/
def expectedPositionSpec (ps : PlaybackState) (localNow serverClockOffset : ℤ) : ℚ :=
  if ps.isPlaying then
    ps.currentTime + (((localNow - serverClockOffset) - ps.lastUpdated : ℤ) : ℚ) / 1000
  else
    ps.currentTime

/-- The `PlaybackState` carried by the Scenario A play broadcast: position 10 s,
playing, stamped with server time 1000 ms. -/
def scenarioAState : PlaybackState :=
  { url := "v", currentTime := 10, isPlaying := true, lastUpdated := 1000,
    videoType := "mp4" }

/-! ## Server-side socket handlers (`backend/src/socket/index.ts`) -/

/-- The ban guard shared by the socket `join-room` handler and the HTTP join
route: `if (until && now < until)` — active exactly when the stored expiry is
a truthy (non-zero) timestamp still in the future. -/
def banActive (bannedUntil : List (String × ℤ)) (userId : String) (now : ℤ) : Bool :=
  match alookup bannedUntil userId with
  | none => false
  | some u => u != 0 && now < u

/-- The descriptive ban error: `Math.ceil((until - now) / 60000)` minutes
remaining. -/
def banMessage (u now : ℤ) : String :=
  let minutesLeft : ℤ := ⌈((u - now : ℤ) : ℚ) / 60000⌉
  s!"You are temporarily banned. Try again in {minutesLeft} minute(s)."

/-- Registration and notification part of the `join-room` handler, run once the
room was found and the ban guard passed: store the presence entry, send
`room-state` (with the roster of the room, joiner included) to the joiner and
broadcast `user-joined` to the others. -/
def joinProceed (st : ServerState) (socketId roomId userId username : String)
    (now : ℤ) (room : Room) : ServerState × List Event :=
  let isHost : Bool := room.hostId == userId
  let socketUser : SocketUser :=
    { userId := userId, username := username, roomId := roomId,
      socketId := socketId, isHost := isHost, isMuted := false }
  let sockets := astore st.activeSockets socketId socketUser
  let participants := (sockets.map Prod.snd).filter (fun u => u.roomId == roomId)
  ({ st with activeSockets := sockets },
   [Event.roomState socketId room participants now,
    Event.userJoined roomId userId username isHost now])

/-- The `join-room` handler: missing room emits `Room not found`; an active
temporary ban emits the remaining-time message; otherwise the join proceeds.
No capacity check is performed on this path. -/
def handleJoinRoom (st : ServerState) (socketId roomId userId username : String)
    (now : ℤ) : ServerState × List Event :=
  match alookup st.rooms roomId with
  | none => (st, [Event.errorTo socketId "Room not found"])
  | some room =>
    match alookup room.bannedUntil userId with
    | some u =>
      if u != 0 && now < u then
        (st, [Event.errorTo socketId (banMessage u now)])
      else
        joinProceed st socketId roomId userId username now room
    | none => joinProceed st socketId roomId userId username now room

/-- The `play` handler: non-host guard, silent return on a missing room,
otherwise `isPlaying := true`, `lastUpdated := now` and a `sync-state`
broadcast. -/
def handlePlay (st : ServerState) (socketId roomId : String) (now : ℤ) :
    ServerState × List Event :=
  match alookup st.activeSockets socketId with
  | none => (st, [Event.errorTo socketId "Only host can control playback"])
  | some u =>
    if !u.isHost then
      (st, [Event.errorTo socketId "Only host can control playback"])
    else
      match alookup st.rooms roomId with
      | none => (st, [])
      | some room =>
        let ps := { room.playbackState with isPlaying := true, lastUpdated := now }
        ({ st with rooms := astore st.rooms roomId { room with playbackState := ps } },
         [Event.syncState roomId ps now])

/-- The `pause` handler: non-host guard, silent return on a missing room,
otherwise `isPlaying := false`, `currentTime := reported`,
`lastUpdated := now` and a `sync-state` broadcast. -/
def handlePause (st : ServerState) (socketId roomId : String) (currentTime : ℚ)
    (now : ℤ) : ServerState × List Event :=
  match alookup st.activeSockets socketId with
  | none => (st, [Event.errorTo socketId "Only host can control playback"])
  | some u =>
    if !u.isHost then
      (st, [Event.errorTo socketId "Only host can control playback"])
    else
      match alookup st.rooms roomId with
      | none => (st, [])
      | some room =>
        let ps := { room.playbackState with
          isPlaying := false, currentTime := currentTime, lastUpdated := now }
        ({ st with rooms := astore st.rooms roomId { room with playbackState := ps } },
         [Event.syncState roomId ps now])

/-- The `seek` handler: non-host guard, silent return on a missing room,
otherwise `currentTime := target`, `lastUpdated := now` (playing flag kept)
and a `sync-state` broadcast. -/
def handleSeek (st : ServerState) (socketId roomId : String) (currentTime : ℚ)
    (now : ℤ) : ServerState × List Event :=
  match alookup st.activeSockets socketId with
  | none => (st, [Event.errorTo socketId "Only host can seek"])
  | some u =>
    if !u.isHost then
      (st, [Event.errorTo socketId "Only host can seek"])
    else
      match alookup st.rooms roomId with
      | none => (st, [])
      | some room =>
        let ps := { room.playbackState with
          currentTime := currentTime, lastUpdated := now }
        ({ st with rooms := astore st.rooms roomId { room with playbackState := ps } },
         [Event.syncState roomId ps now])

/-- The `change-source` handler: non-host guard, silent return on a missing
room, otherwise the playback state is fully replaced with the new url and
kind at position 0, paused, stamped `now`, then broadcast. -/
def handleChangeSource (st : ServerState) (socketId roomId url videoType : String)
    (now : ℤ) : ServerState × List Event :=
  match alookup st.activeSockets socketId with
  | none => (st, [Event.errorTo socketId "Only host can change video"])
  | some u =>
    if !u.isHost then
      (st, [Event.errorTo socketId "Only host can change video"])
    else
      match alookup st.rooms roomId with
      | none => (st, [])
      | some room =>
        let ps : PlaybackState :=
          { url := url, currentTime := 0, isPlaying := false,
            lastUpdated := now, videoType := videoType }
        ({ st with rooms := astore st.rooms roomId { room with playbackState := ps } },
         [Event.syncState roomId ps now])

/-- `message.replace(/<char>/g, repl)` for a single-character global regex:
every occurrence of `target` becomes `repl`, all other characters are kept. -/
def replaceChar (target : Char) (repl : List Char) : List Char → List Char
  | [] => []
  | c :: cs => (if c = target then repl else [c]) ++ replaceChar target repl cs

/-- Sanitization in the `chat-message` handler:
`.replace(/</g, '&lt;').replace(/>/g, '&gt;').substring(0, 500)`. -/
def sanitizedMessage (message : String) : String :=
  ⟨(replaceChar '>' "&gt;".data (replaceChar '<' "&lt;".data message.data)).take 500⟩

/-- The `ChatMessage` object built by the `chat-message` handler; the
generated uuid is passed in as `msgId`, and `(type as any) || 'text'`
defaults a missing or empty kind to `text`. -/
def mkChatMessage (u : SocketUser) (message : String)
    (clientMessageId imageUrl mtype : Option String) (msgId : String) (now : ℤ) :
    ChatMessage :=
  { id := msgId, userId := u.userId, username := u.username,
    message := sanitizedMessage message, timestamp := now,
    clientMessageId := clientMessageId, imageUrl := imageUrl,
    type := match mtype with
            | some t => if t = "" then "text" else t
            | none => "text" }

/-- `chatHistory.push(cm); if (chatHistory.length > 100) chatHistory.shift()`. -/
def boundedHistory (h : List ChatMessage) (cm : ChatMessage) : List ChatMessage :=
  let pushed := h ++ [cm]
  if pushed.length > 100 then pushed.tail else pushed

/-- The `chat-message` handler: unregistered senders are ignored; the
sanitized message is appended to the room history, the oldest entry is
shifted off when the history exceeds 100, and the message is broadcast. -/
def handleChatMessage (st : ServerState) (socketId roomId message : String)
    (clientMessageId imageUrl mtype : Option String) (msgId : String) (now : ℤ) :
    ServerState × List Event :=
  match alookup st.activeSockets socketId with
  | none => (st, [])
  | some u =>
    let cm := mkChatMessage u message clientMessageId imageUrl mtype msgId now
    match alookup st.rooms roomId with
    | none => (st, [Event.chatMessage roomId cm])
    | some room =>
      ({ st with
           rooms :=
             astore st.rooms roomId
               ({ room with chatHistory := boundedHistory room.chatHistory cm }) },
       [Event.chatMessage roomId cm])

/-- `Array.from(activeSockets.entries()).find(...)` in the `kick-user`
handler: the first live presence matching the target user in the room. -/
def findTarget (sockets : List (String × SocketUser)) (roomId userId : String) :
    Option (String × SocketUser) :=
  sockets.find? (fun p => p.2.userId == userId && p.2.roomId == roomId)

/-- The `kick-user` handler: non-host guard; absent target or host target
acknowledged with a failed `kick-result`; otherwise the target is notified,
its presence removed, the room's participant list filtered, a 30-minute ban
recorded, `user-left` broadcast and the kick acknowledged. -/
def handleKickUser (st : ServerState) (socketId roomId targetUserId : String)
    (now : ℤ) : ServerState × List Event :=
  match alookup st.activeSockets socketId with
  | none => (st, [Event.errorTo socketId "Only host can kick users"])
  | some u =>
    if !u.isHost then
      (st, [Event.errorTo socketId "Only host can kick users"])
    else
      match findTarget st.activeSockets roomId targetUserId with
      | none => (st, [Event.kickResult socketId false "User not found in room"])
      | some (targetSocketId, targetUser) =>
        if targetUser.isHost then
          (st, [Event.kickResult socketId false "Cannot kick the host"])
        else
          let sockets := aerase st.activeSockets targetSocketId
          match alookup st.rooms roomId with
          | none =>
            ({ st with activeSockets := sockets },
             [Event.kicked targetSocketId "You were removed from the room",
              Event.userLeft roomId targetUserId targetUser.username now,
              Event.kickResult socketId true targetUserId])
          | some room =>
            let room' := { room with
              participants := room.participants.filter (fun pid => pid != targetUserId),
              bannedUntil := astore room.bannedUntil targetUserId (now + 30 * 60 * 1000) }
            ({ st with activeSockets := sockets,
                       rooms := astore st.rooms roomId room' },
             [Event.kicked targetSocketId "You were removed from the room",
              Event.userLeft roomId targetUserId targetUser.username now,
              Event.kickResult socketId true targetUserId])

/-! ## Periodic reconciliation (the 3-second `setInterval` loop) -/

/-- The checkpoint computed for a playing room on a reconciliation tick:
`currentTime += (serverTime - lastUpdated) / 1000; lastUpdated = serverTime`. -/
def advancePlayback (now : ℤ) (ps : PlaybackState) : PlaybackState :=
  { ps with
    currentTime := ps.currentTime + ((now - ps.lastUpdated : ℤ) : ℚ) / 1000,
    lastUpdated := now }

/-- Body of the periodic sync loop for one room id: missing rooms are skipped;
a playing room is checkpointed and stored back; the (possibly updated) state
is broadcast as `sync-state`. -/
def syncOne (now : ℤ) (st : ServerState) (roomId : String) :
    ServerState × List Event :=
  match alookup st.rooms roomId with
  | none => (st, [])
  | some room =>
    if room.playbackState.isPlaying then
      let ps := advancePlayback now room.playbackState
      ({ st with rooms := astore st.rooms roomId { room with playbackState := ps } },
       [Event.syncState roomId ps now])
    else
      (st, [Event.syncState roomId room.playbackState now])

/-- `new Set(Array.from(activeSockets.values()).map(u => u.roomId))`: the
room ids with at least one live presence, without duplicates. -/
def activeRoomIds (st : ServerState) : List String :=
  (st.activeSockets.map (fun p => p.2.roomId)).dedup

/-- One iteration of the `for (const roomId of roomIds)` loop: run `syncOne`
on the accumulated state and append its emissions. -/
def syncStep (now : ℤ) (acc : ServerState × List Event) (roomId : String) :
    ServerState × List Event :=
  ((syncOne now acc.1 roomId).1, acc.2 ++ (syncOne now acc.1 roomId).2)

/-- One firing of the periodic 3-second reconciliation interval: every room
with at least one live presence is processed by `syncOne`. -/
def periodicSync (st : ServerState) (now : ℤ) : ServerState × List Event :=
  (activeRoomIds st).foldl (syncStep now) (st, [])

/-! ## HTTP join route (`backend/src/routes/rooms.ts`, `POST /:roomId/join`) -/

/-- Outcome of the HTTP join route: the JSON room on success, or an
`AppError(message, status)`. -/
inductive JoinResult where
  | ok (room : Room)
  | err (status : Nat) (message : String)
deriving DecidableEq

/-- `POST /rooms/:roomId/join`: missing user id is 400, missing room 404, an
active temporary ban 403 with the remaining-time message, a full room
(`participants.length >= maxParticipants`) 403 `Room is full`; otherwise the
user is appended to the participant list unless already present. -/
def httpJoinRoom (rooms : List (String × Room)) (roomId userId : String)
    (now : ℤ) : List (String × Room) × JoinResult :=
  if userId = "" then (rooms, JoinResult.err 400 "User ID required")
  else
    match alookup rooms roomId with
    | none => (rooms, JoinResult.err 404 "Room not found")
    | some room =>
      let afterBan : List (String × Room) × JoinResult :=
        if room.participants.length ≥ room.maxParticipants then
          (rooms, JoinResult.err 403 "Room is full")
        else if userId ∈ room.participants then
          (rooms, JoinResult.ok room)
        else
          let room' := { room with participants := room.participants ++ [userId] }
          (astore rooms roomId room', JoinResult.ok room')
      match alookup room.bannedUntil userId with
      | some u =>
        if u != 0 && now < u then (rooms, JoinResult.err 403 (banMessage u now))
        else afterBan
      | none => afterBan

/-! ## Concrete fixtures -/

/-- A playing playback state: position 42 s as of server time 500 ms. -/
def psPlaying : PlaybackState :=
  { url := "http://example.com/v.mp4", currentTime := 42, isPlaying := true,
    lastUpdated := 500, videoType := "mp4" }

/-- The host's presence entry (socket `sh`). -/
def hostUser : SocketUser :=
  { userId := "h", username := "Host", roomId := "r", socketId := "sh",
    isHost := true, isMuted := false }

/-- A non-host guest's presence entry (socket `s1`). -/
def guestUser : SocketUser :=
  { userId := "g", username := "Guest", roomId := "r", socketId := "s1",
    isHost := false, isMuted := false }

/-- A room hosted by `h` with guest `g`, currently playing. -/
def roomA : Room :=
  { id := "r", code := some "12345", hostId := "h", name := "movie night",
    participants := ["h", "g"], playbackState := psPlaying, chatHistory := [],
    maxParticipants := 10, bannedUntil := [] }

/-- Server state with room `r` and both presences live. -/
def stA : ServerState :=
  { rooms := [("r", roomA)], activeSockets := [("sh", hostUser), ("s1", guestUser)] }

/-- Server state with the host presence live but no room stored. -/
def stNoRoom : ServerState :=
  { rooms := [], activeSockets := [("sh", hostUser)] }

/-- Room `r` with `g` banned until server time 1 800 000 ms (the expiry a kick
at time 0 records). -/
def roomBanned : Room :=
  { roomA with participants := ["h"], bannedUntil := [("g", 1800000)] }

/-- Server state holding `roomBanned`. -/
def stBanned : ServerState :=
  { rooms := [("r", roomBanned)], activeSockets := [("sh", hostUser)] }

/-- A room at capacity: 2 participants, `maxParticipants = 2`. -/
def roomFull : Room :=
  { roomA with participants := ["h", "g"], maxParticipants := 2 }

/-- A room one short of capacity: 1 participant, `maxParticipants = 2`. -/
def roomOne : Room :=
  { roomA with participants := ["h"], maxParticipants := 2 }

/-- Server state holding the at-capacity room with no live presences. -/
def stFull : ServerState :=
  { rooms := [("r", roomFull)], activeSockets := [] }

/-- A chat message fixture. -/
def chatMsgA : ChatMessage :=
  { id := "m0", userId := "h", username := "Host", message := "hello",
    timestamp := 1, clientMessageId := none, imageUrl := none, type := "text" }

/-- Room `r` whose chat history already holds exactly 100 messages. -/
def roomChat100 : Room :=
  { roomA with chatHistory := List.replicate 100 chatMsgA }

/-- Server state holding `roomChat100` with both presences live. -/
def stChat100 : ServerState :=
  { rooms := [("r", roomChat100)], activeSockets := [("sh", hostUser), ("s1", guestUser)] }

/-! ## Association-list lemmas -/

theorem alookup_astore_self {α : Type} (l : List (String × α)) (k : String) (v : α) :
    alookup (astore l k v) k = some v := by
  induction l with
  | nil => simp [astore, alookup]
  | cons hd tl ih =>
    obtain ⟨k', w⟩ := hd
    by_cases h : k' = k
    · subst h
      simp [astore, alookup]
    · simp only [astore, if_neg h, alookup, if_neg (Ne.symm h)]
      exact ih

theorem alookup_astore_ne {α : Type} (l : List (String × α)) (k k' : String) (v : α)
    (h : k' ≠ k) : alookup (astore l k v) k' = alookup l k' := by
  induction l with
  | nil => simp [astore, alookup, h]
  | cons hd tl ih =>
    obtain ⟨k0, w⟩ := hd
    by_cases h0 : k0 = k
    · subst h0
      simp [astore, alookup, h]
    · simp only [astore, if_neg h0, alookup]
      by_cases h1 : k' = k0
      · simp [h1]
      · simp only [if_neg h1]
        exact ih

/-! ## C1: client expected position -/

/-- C1.  The client's `calculateExpectedTime` implements the spec formula
`expectedPosition(state)` with `serverClockOffset` taken from the most recent
broadcast, but on the Scenario A numbers (play broadcast with position 10 s
stamped at server time 1000 ms, received at local time 1200 ms after a 200 ms
network delay, evaluated at the local time at which true server time is
4000 ms) the result is 12.8 s, i.e. 13 s short by the 200 ms one-way delay
that `serverClockOffset` absorbs. -/
theorem calculateExpectedTime_spec_and_scenarioA :
    (∀ (ps : PlaybackState) (localNow localReceiveTime broadcastServerTime : ℤ),
      calculateExpectedTime ps localNow
          (updateServerTimeOffset localReceiveTime broadcastServerTime) =
        expectedPositionSpec ps localNow
          (updateServerTimeOffset localReceiveTime broadcastServerTime)) ∧
    calculateExpectedTime scenarioAState 4000 (updateServerTimeOffset 1200 1000) =
      13 - 200 / 1000 := by
  constructor
  · intro ps localNow localReceiveTime broadcastServerTime
    simp [calculateExpectedTime, expectedPositionSpec, getServerTime]
  · norm_num [calculateExpectedTime, scenarioAState, updateServerTimeOffset,
      getServerTime]

/-- C1 counterexample.  On the Scenario A numbers the code computes 12.8, not
the claimed 13.0. -/
theorem calculateExpectedTime_scenarioA_ne_13 :
    calculateExpectedTime scenarioAState 4000 (updateServerTimeOffset 1200 1000) ≠ 13 := by
  norm_num [calculateExpectedTime, scenarioAState, updateServerTimeOffset,
    getServerTime]

/-! ## C3: non-host control intents are rejected without mutation -/

/-- C3.  Every control intent (`play`, `pause`, `seek`, `change-source`,
`kick-user`) from a connection whose presence entry is absent or whose host
flag is false emits exactly one permission error to that connection and
leaves the whole server state — in particular every room's `PlaybackState` —
unchanged. -/
theorem nonHost_control_rejected (st : ServerState) (socketId : String)
    (h : alookup st.activeSockets socketId = none ∨
         ∃ u, alookup st.activeSockets socketId = some u ∧ u.isHost = false)
    (roomId : String) (t : ℚ) (url videoType targetUserId : String) (now : ℤ) :
    handlePlay st socketId roomId now =
      (st, [Event.errorTo socketId "Only host can control playback"]) ∧
    handlePause st socketId roomId t now =
      (st, [Event.errorTo socketId "Only host can control playback"]) ∧
    handleSeek st socketId roomId t now =
      (st, [Event.errorTo socketId "Only host can seek"]) ∧
    handleChangeSource st socketId roomId url videoType now =
      (st, [Event.errorTo socketId "Only host can change video"]) ∧
    handleKickUser st socketId roomId targetUserId now =
      (st, [Event.errorTo socketId "Only host can kick users"]) := by
  rcases h with h | ⟨u, hu, hhost⟩
  · refine ⟨?_, ?_, ?_, ?_, ?_⟩ <;>
      simp [handlePlay, handlePause, handleSeek, handleChangeSource,
        handleKickUser, h]
  · refine ⟨?_, ?_, ?_, ?_, ?_⟩ <;>
      simp [handlePlay, handlePause, handleSeek, handleChangeSource,
        handleKickUser, hu, hhost]

/-- C3 witness: the concrete guest connection `s1` is rejected on all five
intents and the state is untouched. -/
theorem nonHost_control_rejected_witness :
    handlePlay stA "s1" "r" 7000 =
      (stA, [Event.errorTo "s1" "Only host can control playback"]) ∧
    handleKickUser stA "s1" "r" "h" 7000 =
      (stA, [Event.errorTo "s1" "Only host can kick users"]) := by
  have h := nonHost_control_rejected stA "s1"
    (Or.inr ⟨guestUser, by decide, by decide⟩) "r" 3 "u" "mp4" "h" 7000
  exact ⟨h.1, h.2.2.2.2⟩

/-! ## C4: host control intent against a missing room -/

/-- C4 counterexample: a host's `play`/`pause`/`seek`/`change-source` naming
a room id that does not exist returns silently — the state is unchanged but
the emission list is empty, so no "room not found" error reaches the caller. -/
theorem control_missing_room_no_error_signal :
    handlePlay stNoRoom "sh" "r" 9000 = (stNoRoom, []) ∧
    handlePause stNoRoom "sh" "r" 3 9000 = (stNoRoom, []) ∧
    handleSeek stNoRoom "sh" "r" 3 9000 = (stNoRoom, []) ∧
    handleChangeSource stNoRoom "sh" "r" "u" "mp4" 9000 = (stNoRoom, []) := by
  refine ⟨?_, ?_, ?_, ?_⟩ <;> decide

/-- C4 (amended).  A host control intent (`play`, `pause`, `seek`,
`change-source`) naming a nonexistent room is a no-op that does not throw,
but it emits nothing at all to the caller; the explicit "Room not found"
error is emitted only by the `join-room` handler. -/
theorem control_missing_room_silent_noop (st : ServerState)
    (socketId : String) (u : SocketUser)
    (hu : alookup st.activeSockets socketId = some u) (hhost : u.isHost = true)
    (roomId : String) (hr : alookup st.rooms roomId = none)
    (t : ℚ) (url videoType userId username : String) (now : ℤ) :
    handlePlay st socketId roomId now = (st, []) ∧
    handlePause st socketId roomId t now = (st, []) ∧
    handleSeek st socketId roomId t now = (st, []) ∧
    handleChangeSource st socketId roomId url videoType now = (st, []) ∧
    handleJoinRoom st socketId roomId userId username now =
      (st, [Event.errorTo socketId "Room not found"]) := by
  refine ⟨?_, ?_, ?_, ?_, ?_⟩ <;>
    simp [handlePlay, handlePause, handleSeek, handleChangeSource,
      handleJoinRoom, hu, hhost, hr]

/-- C4 witness: the concrete host connection `sh` targeting the absent room
`r` gets a silent no-op from `play` and the explicit error from `join-room`. -/
theorem control_missing_room_silent_noop_witness :
    handlePlay stNoRoom "sh" "r" 9000 = (stNoRoom, []) ∧
    handleJoinRoom stNoRoom "sh" "r" "h" "Host" 9000 =
      (stNoRoom, [Event.errorTo "sh" "Room not found"]) := by
  have h := control_missing_room_silent_noop stNoRoom "sh" hostUser
    (by decide) (by decide) "r" (by decide) 3 "u" "mp4" "h" "Host" 9000
  exact ⟨h.1, h.2.2.2.2⟩

/-! ## C5: changeSource resets the playback state -/

/-- C5.  For every prior playback state, a host `change-source` stores a
state with the new url and kind, `currentTime = 0`, `isPlaying = false` and
`lastUpdated = now`, and broadcasts exactly that state. -/
theorem changeSource_resets (st : ServerState) (socketId : String)
    (u : SocketUser) (hu : alookup st.activeSockets socketId = some u)
    (hhost : u.isHost = true) (roomId : String) (room : Room)
    (hr : alookup st.rooms roomId = some room) (url videoType : String) (now : ℤ) :
    alookup (handleChangeSource st socketId roomId url videoType now).1.rooms roomId =
      some { room with playbackState :=
        { url := url, currentTime := 0, isPlaying := false,
          lastUpdated := now, videoType := videoType } } ∧
    (handleChangeSource st socketId roomId url videoType now).2 =
      [Event.syncState roomId
        { url := url, currentTime := 0, isPlaying := false,
          lastUpdated := now, videoType := videoType } now] := by
  constructor
  · simp [handleChangeSource, hu, hhost, hr, alookup_astore_self]
  · simp [handleChangeSource, hu, hhost, hr]

/-- C5 witness: changing the source of the playing room `r` (position 42,
playing) yields position 0, paused, stamped 9000, with the new url/kind. -/
theorem changeSource_resets_witness :
    alookup (handleChangeSource stA "sh" "r" "http://new/video.m3u8" "hls" 9000).1.rooms "r" =
      some { roomA with playbackState :=
        { url := "http://new/video.m3u8", currentTime := 0, isPlaying := false,
          lastUpdated := 9000, videoType := "hls" } } ∧
    (handleChangeSource stA "sh" "r" "http://new/video.m3u8" "hls" 9000).2 =
      [Event.syncState "r"
        { url := "http://new/video.m3u8", currentTime := 0, isPlaying := false,
          lastUpdated := 9000, videoType := "hls" } 9000] :=
  changeSource_resets stA "sh" hostUser (by decide) (by decide) "r" roomA
    (by decide) "http://new/video.m3u8" "hls" 9000

/-! ## C6: HTTP join capacity boundary -/

/-- C6.  On the HTTP join route, a join into an existing room by an unbanned
user with a nonempty user id is rejected with `Room is full` (HTTP 403) and
the stored rooms are unchanged when the participant list is exactly at
`maxParticipants`; at `maxParticipants - 1` it succeeds, appending the user
unless already present. -/
theorem httpJoin_capacity_boundary (rooms : List (String × Room))
    (roomId userId : String) (now : ℤ) (room : Room)
    (hid : userId ≠ "") (hr : alookup rooms roomId = some room)
    (hban : banActive room.bannedUntil userId now = false) :
    (room.participants.length = room.maxParticipants →
      httpJoinRoom rooms roomId userId now =
        (rooms, JoinResult.err 403 "Room is full")) ∧
    (room.participants.length + 1 = room.maxParticipants →
      (userId ∈ room.participants →
        httpJoinRoom rooms roomId userId now = (rooms, JoinResult.ok room)) ∧
      (userId ∉ room.participants →
        httpJoinRoom rooms roomId userId now =
          (astore rooms roomId
             { room with participants := room.participants ++ [userId] },
           JoinResult.ok
             { room with participants := room.participants ++ [userId] }))) := by
  have hguard : ∀ r : List (String × Room) × JoinResult,
      (match alookup room.bannedUntil userId with
       | some u => if u != 0 && now < u then
           (rooms, JoinResult.err 403 (banMessage u now))
         else r
       | none => r) = r := by
    intro r
    cases hb : alookup room.bannedUntil userId with
    | none => rfl
    | some u =>
      simp only [banActive, hb] at hban
      simp [hban]
  constructor
  · intro hfull
    simp only [httpJoinRoom, if_neg hid, hr]
    rw [hguard]
    simp [hfull]
  · intro hone
    have hlt : ¬ room.participants.length ≥ room.maxParticipants := by omega
    constructor
    · intro hmem
      simp only [httpJoinRoom, if_neg hid, hr]
      rw [hguard]
      simp [hlt, hmem]
    · intro hmem
      simp only [httpJoinRoom, if_neg hid, hr]
      rw [hguard]
      simp [hlt, hmem]

/-- C6 witness: joining the 2/2 room is rejected with `Room is full` and the
store is unchanged; joining the 1/2 room succeeds and appends the user. -/
theorem httpJoin_capacity_boundary_witness :
    httpJoinRoom [("r", roomFull)] "r" "u9" 0 =
      ([("r", roomFull)], JoinResult.err 403 "Room is full") ∧
    httpJoinRoom [("r", roomOne)] "r" "u9" 0 =
      (astore [("r", roomOne)] "r"
         { roomOne with participants := roomOne.participants ++ ["u9"] },
       JoinResult.ok { roomOne with participants := roomOne.participants ++ ["u9"] }) := by
  constructor
  · exact (httpJoin_capacity_boundary [("r", roomFull)] "r" "u9" 0 roomFull
      (by decide) (by decide) (by decide)).1 (by decide)
  · exact ((httpJoin_capacity_boundary [("r", roomOne)] "r" "u9" 0 roomOne
      (by decide) (by decide) (by decide)).2 (by decide)).2 (by decide)

/-! ## C7: kick ban, rejection during the window, rejoin after expiry -/

/-- C7.  (a) A host kick of a live non-host target in an existing room
records `bannedUntil[target] = now + 30*60*1000`.  (b) While a stored ban
expiry is non-zero and in the future, a socket join is rejected with the
remaining-time error and nothing changes.  (c) With 20 minutes of the window
remaining the message reports `20 minute(s)`.  (d) Once `now` reaches the
stored expiry, the same user's join proceeds: the presence entry is
registered and `room-state` / `user-joined` are emitted. -/
theorem kick_ban_then_rejoin :
    (∀ (st : ServerState) (socketId : String) (u : SocketUser)
       (roomId targetUserId : String) (tsid : String) (tu : SocketUser)
       (room : Room) (now : ℤ),
       alookup st.activeSockets socketId = some u → u.isHost = true →
       findTarget st.activeSockets roomId targetUserId = some (tsid, tu) →
       tu.isHost = false → alookup st.rooms roomId = some room →
       ∃ room',
         alookup (handleKickUser st socketId roomId targetUserId now).1.rooms roomId =
           some room' ∧
         alookup room'.bannedUntil targetUserId = some (now + 30 * 60 * 1000)) ∧
    (∀ (st : ServerState) (socketId roomId userId username : String) (now : ℤ)
       (room : Room) (u0 : ℤ),
       alookup st.rooms roomId = some room →
       alookup room.bannedUntil userId = some u0 → u0 ≠ 0 → now < u0 →
       handleJoinRoom st socketId roomId userId username now =
         (st, [Event.errorTo socketId (banMessage u0 now)])) ∧
    (∀ u0 now : ℤ, u0 - now = 1200000 →
       banMessage u0 now =
         "You are temporarily banned. Try again in 20 minute(s).") ∧
    (∀ (st : ServerState) (socketId roomId userId username : String) (now : ℤ)
       (room : Room) (u0 : ℤ),
       alookup st.rooms roomId = some room →
       alookup room.bannedUntil userId = some u0 → u0 ≤ now →
       handleJoinRoom st socketId roomId userId username now =
         ({ st with
              activeSockets :=
                astore st.activeSockets socketId
                  ({ userId := userId, username := username, roomId := roomId,
                     socketId := socketId, isHost := room.hostId == userId,
                     isMuted := false }) },
          [Event.roomState socketId room
             (((astore st.activeSockets socketId
                 ({ userId := userId, username := username, roomId := roomId,
                    socketId := socketId, isHost := room.hostId == userId,
                    isMuted := false })).map Prod.snd).filter
               (fun v => v.roomId == roomId)) now,
           Event.userJoined roomId userId username (room.hostId == userId) now])) := by
  refine ⟨?_, ?_, ?_, ?_⟩
  · intro st socketId u roomId targetUserId tsid tu room now hu hhost hft hth hr
    refine ⟨{ room with
        participants := room.participants.filter (fun pid => pid != targetUserId),
        bannedUntil := astore room.bannedUntil targetUserId (now + 30 * 60 * 1000) },
      ?_, alookup_astore_self _ _ _⟩
    simp [handleKickUser, hu, hhost, hft, hth, hr, alookup_astore_self]
  · intro st socketId roomId userId username now room u0 hr hb h0 hlt
    have : (u0 != 0 && decide (now < u0)) = true := by
      simp [h0, hlt]
    simp [handleJoinRoom, hr, hb, this]
  · intro u0 now hdiff
    have hu0 : u0 = now + 1200000 := by omega
    subst hu0
    have h1 : (now + 1200000 - now : ℤ) = 1200000 := by ring
    have hceil : (⌈((now + 1200000 - now : ℤ) : ℚ) / 60000⌉ : ℤ) = 20 := by
      rw [h1]
      norm_num
    simp only [banMessage, hceil]
    rfl
  · intro st socketId roomId userId username now room u0 hr hb hle
    have : (u0 != 0 && decide (now < u0)) = false := by
      simp only [Bool.and_eq_false_iff, decide_eq_false_iff_not, not_lt]
      right
      exact hle
    simp [handleJoinRoom, hr, hb, this, joinProceed]

/-- C7 witness: kicking `g` from room `r` at time 0 records a ban until
1 800 000 ms; `g`'s join at 600 000 ms (10 minutes in) is rejected with the
20-minutes-remaining message; `g`'s join at 1 800 000 ms proceeds. -/
theorem kick_ban_then_rejoin_witness :
    (∃ room',
       alookup (handleKickUser stA "sh" "r" "g" 0).1.rooms "r" = some room' ∧
       alookup room'.bannedUntil "g" = some 1800000) ∧
    handleJoinRoom stBanned "s2" "r" "g" "Guest" 600000 =
      (stBanned,
       [Event.errorTo "s2"
          "You are temporarily banned. Try again in 20 minute(s)."]) ∧
    (handleJoinRoom stBanned "s2" "r" "g" "Guest" 1800000).2 =
      [Event.roomState "s2" roomBanned
         [hostUser,
          { userId := "g", username := "Guest", roomId := "r",
            socketId := "s2", isHost := false, isMuted := false }] 1800000,
       Event.userJoined "r" "g" "Guest" false 1800000] := by
  refine ⟨?_, ?_, ?_⟩
  · exact kick_ban_then_rejoin.1 stA "sh" hostUser "r" "g" "s1" guestUser roomA 0
      (by decide) (by decide) (by decide) (by decide) (by decide)
  · have h := kick_ban_then_rejoin.2.1 stBanned "s2" "r" "g" "Guest" 600000
      roomBanned 1800000 (by decide) (by decide) (by decide) (by decide)
    have hmsg := kick_ban_then_rejoin.2.2.1 1800000 600000 (by decide)
    rw [h, hmsg]
  · have h := kick_ban_then_rejoin.2.2.2 stBanned "s2" "r" "g" "Guest" 1800000
      roomBanned 1800000 (by decide) (by decide) (by decide)
    rw [h]
    decide

/-! ## Chat-history and sanitization lemmas -/

theorem tail_append_singleton {α : Type} (h : List α) (x : α) (hne : h ≠ []) :
    (h ++ [x]).tail = h.tail ++ [x] := by
  cases h with
  | nil => exact absurd rfl hne
  | cons a t => rfl

theorem boundedHistory_length_le (h : List ChatMessage) (cm : ChatMessage)
    (hle : h.length ≤ 100) : (boundedHistory h cm).length ≤ 100 := by
  dsimp only [boundedHistory]
  split
  · simp only [List.length_tail, List.length_append, List.length_singleton]
    omega
  · next hgt =>
      simp only [List.length_append, List.length_singleton] at hgt ⊢
      omega

theorem boundedHistory_of_full (h : List ChatMessage) (cm : ChatMessage)
    (h100 : h.length = 100) : boundedHistory h cm = h.tail ++ [cm] := by
  have hne : h ≠ [] := by
    intro hnil
    rw [hnil] at h100
    simp at h100
  have hgt : (h ++ [cm]).length > 100 := by
    simp [h100]
  unfold boundedHistory
  rw [if_pos hgt, tail_append_singleton h cm hne]

theorem mem_boundedHistory (h : List ChatMessage) (cm : ChatMessage) :
    cm ∈ boundedHistory h cm := by
  unfold boundedHistory
  by_cases hgt : (h ++ [cm]).length > 100
  · rw [if_pos hgt]
    have hne : h ≠ [] := by
      intro hnil
      rw [hnil] at hgt
      simp at hgt
    rw [tail_append_singleton h cm hne]
    simp
  · rw [if_neg hgt]
    simp

theorem not_mem_replaceChar {c target : Char} {repl : List Char}
    (hrepl : c ∉ repl) :
    ∀ l : List Char, (c = target ∨ c ∉ l) → c ∉ replaceChar target repl l := by
  intro l
  induction l with
  | nil =>
    intro _
    simp [replaceChar]
  | cons a as ih =>
    intro hl hmem
    simp only [replaceChar, List.mem_append] at hmem
    rcases hmem with hmem | hmem
    · by_cases ha : a = target
      · rw [if_pos ha] at hmem
        exact hrepl hmem
      · rw [if_neg ha] at hmem
        have hca : c = a := List.mem_singleton.mp hmem
        rcases hl with rfl | hl
        · exact ha hca.symm
        · exact hl (by rw [hca]; exact List.mem_cons_self a as)
    · refine ih ?_ hmem
      rcases hl with rfl | hl
      · exact Or.inl rfl
      · exact Or.inr fun hmem' => hl (List.mem_cons_of_mem a hmem')

/-! ## C8: bounded chat history ring buffer -/

/-- C8.  For every chat message processed against an existing room by a
registered sender: if the history held at most 100 messages it still does
afterwards, and if it held exactly 100 the stored history becomes the old
history minus its oldest entry, in order, with the new message appended. -/
theorem chatHistory_bounded_ring_buffer (st : ServerState)
    (socketId roomId message : String) (cmi iu mt : Option String)
    (msgId : String) (now : ℤ) (u : SocketUser) (room : Room)
    (hu : alookup st.activeSockets socketId = some u)
    (hr : alookup st.rooms roomId = some room) :
    ∃ room',
      alookup (handleChatMessage st socketId roomId message cmi iu mt msgId now).1.rooms
          roomId = some room' ∧
      (room.chatHistory.length ≤ 100 → room'.chatHistory.length ≤ 100) ∧
      (room.chatHistory.length = 100 →
        room'.chatHistory = room.chatHistory.tail ++
          [mkChatMessage u message cmi iu mt msgId now]) := by
  refine ⟨{ room with
      chatHistory :=
        boundedHistory room.chatHistory
          (mkChatMessage u message cmi iu mt msgId now) }, ?_, ?_, ?_⟩
  · simp [handleChatMessage, hu, hr, alookup_astore_self]
  · intro hle
    exact boundedHistory_length_le _ _ hle
  · intro h100
    exact boundedHistory_of_full _ _ h100

/-- C8 witness: a chat message into the room whose history holds exactly 100
messages leaves a 100-long history equal to the old tail plus the new
message. -/
theorem chatHistory_bounded_ring_buffer_witness :
    ∃ room',
      alookup (handleChatMessage stChat100 "s1" "r" "hi" none none none "m1" 5).1.rooms
          "r" = some room' ∧
      room'.chatHistory.length ≤ 100 ∧
      room'.chatHistory = (List.replicate 100 chatMsgA).tail ++
        [mkChatMessage guestUser "hi" none none none "m1" 5] := by
  obtain ⟨room', h1, h2, h3⟩ := chatHistory_bounded_ring_buffer stChat100 "s1" "r" "hi"
    none none none "m1" 5 guestUser roomChat100 (by decide) (by decide)
  have hlen : roomChat100.chatHistory.length = 100 := by
    simp [roomChat100]
  exact ⟨room', h1, h2 (le_of_eq hlen), h3 hlen⟩

/-! ## C10: chat message sanitization -/

/-- C10.  The sanitized chat text is the input with every `<` turned into
`&lt;` and every `>` into `&gt;`, truncated to 500 characters: it never
contains a raw `<` or `>` and never exceeds 500 characters; and the handler
broadcasts (and, when the room exists, stores) exactly the message object
carrying that sanitized text. -/
theorem chat_message_sanitized :
    (∀ m : String,
      '<' ∉ (sanitizedMessage m).data ∧ '>' ∉ (sanitizedMessage m).data ∧
      (sanitizedMessage m).length ≤ 500) ∧
    (∀ (st : ServerState) (socketId roomId message : String)
       (cmi iu mt : Option String) (msgId : String) (now : ℤ) (u : SocketUser),
      alookup st.activeSockets socketId = some u →
      (handleChatMessage st socketId roomId message cmi iu mt msgId now).2 =
        [Event.chatMessage roomId (mkChatMessage u message cmi iu mt msgId now)] ∧
      (mkChatMessage u message cmi iu mt msgId now).message = sanitizedMessage message ∧
      (∀ room, alookup st.rooms roomId = some room →
        ∃ room',
          alookup (handleChatMessage st socketId roomId message cmi iu mt msgId now).1.rooms
              roomId = some room' ∧
          mkChatMessage u message cmi iu mt msgId now ∈ room'.chatHistory)) := by
  constructor
  · intro m
    have hlt : '<' ∉ replaceChar '>' "&gt;".data (replaceChar '<' "&lt;".data m.data) := by
      refine not_mem_replaceChar (by decide) _ (Or.inr ?_)
      exact not_mem_replaceChar (by decide) _ (Or.inl rfl)
    have hgt : '>' ∉ replaceChar '>' "&gt;".data (replaceChar '<' "&lt;".data m.data) :=
      not_mem_replaceChar (by decide) _ (Or.inl rfl)
    refine ⟨?_, ?_, ?_⟩
    · intro hmem
      exact hlt ((List.take_sublist 500 _).subset hmem)
    · intro hmem
      exact hgt ((List.take_sublist 500 _).subset hmem)
    · show (List.take 500 _).length ≤ 500
      rw [List.length_take]
      exact min_le_left _ _
  · intro st socketId roomId message cmi iu mt msgId now u hu
    refine ⟨?_, rfl, ?_⟩
    · cases hr : alookup st.rooms roomId <;>
        simp [handleChatMessage, hu, hr]
    · intro room hr
      refine ⟨{ room with
          chatHistory :=
            boundedHistory room.chatHistory
              (mkChatMessage u message cmi iu mt msgId now) },
        ?_, mem_boundedHistory _ _⟩
      simp [handleChatMessage, hu, hr, alookup_astore_self]

/-- C10 witness: the guest's message `<b>hi</b>` is broadcast with the text
`&lt;b&gt;hi&lt;/b&gt;`. -/
theorem chat_message_sanitized_witness :
    (handleChatMessage stA "s1" "r" "<b>hi</b>" none none none "m1" 5).2 =
      [Event.chatMessage "r" (mkChatMessage guestUser "<b>hi</b>" none none none "m1" 5)] ∧
    sanitizedMessage "<b>hi</b>" = "&lt;b&gt;hi&lt;/b&gt;" := by
  have h := chat_message_sanitized.2 stA "s1" "r" "<b>hi</b>" none none none "m1" 5
    guestUser (by decide)
  exact ⟨h.1, by decide⟩

/-! ## C9: the socket join path performs no capacity check -/

/-- C9.  A `join-room` event for an existing room by a user with no active
ban succeeds — presence registered, `room-state` sent to the joiner,
`user-joined` broadcast — even when the participant list already has
`maxParticipants` or more entries: no capacity check exists on this path. -/
theorem socketJoin_no_capacity_check (st : ServerState)
    (socketId roomId userId username : String) (now : ℤ) (room : Room)
    (hr : alookup st.rooms roomId = some room)
    (hban : banActive room.bannedUntil userId now = false)
    (hfull : room.maxParticipants ≤ room.participants.length) :
    handleJoinRoom st socketId roomId userId username now =
      ({ st with
           activeSockets :=
             astore st.activeSockets socketId
               ({ userId := userId, username := username, roomId := roomId,
                  socketId := socketId, isHost := room.hostId == userId,
                  isMuted := false }) },
       [Event.roomState socketId room
          (((astore st.activeSockets socketId
              ({ userId := userId, username := username, roomId := roomId,
                 socketId := socketId, isHost := room.hostId == userId,
                 isMuted := false })).map Prod.snd).filter
            (fun v => v.roomId == roomId)) now,
        Event.userJoined roomId userId username (room.hostId == userId) now]) := by
  have hguard : ∀ r : ServerState × List Event,
      (match alookup room.bannedUntil userId with
       | some u =>
         if u != 0 && now < u then
           (st, [Event.errorTo socketId (banMessage u now)])
         else joinProceed st socketId roomId userId username now room
       | none => joinProceed st socketId roomId userId username now room) =
        joinProceed st socketId roomId userId username now room := by
    intro r
    cases hb : alookup room.bannedUntil userId with
    | none => rfl
    | some u =>
      simp only [banActive, hb] at hban
      simp [hban]
  simp only [handleJoinRoom, hr]
  rw [hguard (st, [])]
  rfl

/-- C9 witness: user `u9` joins room `r`, already at its capacity of 2, over
the socket path; the presence is registered and both join events fire. -/
theorem socketJoin_no_capacity_check_witness :
    handleJoinRoom stFull "s9" "r" "u9" "Nina" 4000 =
      ({ stFull with
           activeSockets :=
             [("s9", { userId := "u9", username := "Nina", roomId := "r",
                       socketId := "s9", isHost := false, isMuted := false })] },
       [Event.roomState "s9" roomFull
          [{ userId := "u9", username := "Nina", roomId := "r",
             socketId := "s9", isHost := false, isMuted := false }] 4000,
        Event.userJoined "r" "u9" "Nina" false 4000]) := by
  have h := socketJoin_no_capacity_check stFull "s9" "r" "u9" "Nina" 4000 roomFull
    (by decide) (by decide) (by decide)
  rw [h]
  decide

/-! ## Periodic-sync fold lemmas -/

theorem syncOne_state_other (now : ℤ) (st : ServerState) (rid rid' : String)
    (hne : rid' ≠ rid) :
    alookup (syncOne now st rid).1.rooms rid' = alookup st.rooms rid' := by
  unfold syncOne
  cases h : alookup st.rooms rid with
  | none => rfl
  | some room =>
    cases hp : room.playbackState.isPlaying with
    | true => simp [hp, alookup_astore_ne _ _ _ _ hne]
    | false => simp [hp]

theorem syncFold_events_mono (now : ℤ) :
    ∀ (l : List String) (acc : ServerState × List Event) (e : Event),
      e ∈ acc.2 → e ∈ (l.foldl (syncStep now) acc).2 := by
  intro l
  induction l with
  | nil =>
    intro acc e he
    exact he
  | cons a t ih =>
    intro acc e he
    exact ih (syncStep now acc a) e (List.mem_append_left _ he)

theorem syncFold_state_not_mem (now : ℤ) :
    ∀ (l : List String) (acc : ServerState × List Event) (rid : String),
      rid ∉ l →
      alookup (l.foldl (syncStep now) acc).1.rooms rid = alookup acc.1.rooms rid := by
  intro l
  induction l with
  | nil =>
    intro acc rid _
    rfl
  | cons a t ih =>
    intro acc rid hmem
    have h1 : rid ≠ a := fun h => hmem (h ▸ List.mem_cons_self a t)
    have h2 : rid ∉ t := fun h => hmem (List.mem_cons_of_mem a h)
    rw [List.foldl_cons, ih (syncStep now acc a) rid h2]
    exact syncOne_state_other now acc.1 a rid h1

theorem syncFold_process (now : ℤ) :
    ∀ (l : List String) (acc : ServerState × List Event) (rid : String) (room : Room),
      l.Nodup → rid ∈ l → alookup acc.1.rooms rid = some room →
      ((room.playbackState.isPlaying = true →
          alookup (l.foldl (syncStep now) acc).1.rooms rid =
            some { room with playbackState := advancePlayback now room.playbackState } ∧
          Event.syncState rid (advancePlayback now room.playbackState) now ∈
            (l.foldl (syncStep now) acc).2) ∧
       (room.playbackState.isPlaying = false →
          alookup (l.foldl (syncStep now) acc).1.rooms rid = some room ∧
          Event.syncState rid room.playbackState now ∈
            (l.foldl (syncStep now) acc).2)) := by
  intro l
  induction l with
  | nil =>
    intro acc rid room _ hmem _
    simp at hmem
  | cons a t ih =>
    intro acc rid room hnd hmem hlook
    rcases List.mem_cons.mp hmem with rfl | hmem'
    · have hnotin : rid ∉ t := (List.nodup_cons.mp hnd).1
      constructor
      · intro hp
        have hstate : alookup (syncStep now acc rid).1.rooms rid =
            some { room with playbackState := advancePlayback now room.playbackState } := by
          simp [syncStep, syncOne, hlook, hp, alookup_astore_self]
        have hev : Event.syncState rid (advancePlayback now room.playbackState) now ∈
            (syncStep now acc rid).2 := by
          simp [syncStep, syncOne, hlook, hp]
        refine ⟨?_, ?_⟩
        · rw [List.foldl_cons, syncFold_state_not_mem now t _ rid hnotin]
          exact hstate
        · rw [List.foldl_cons]
          exact syncFold_events_mono now t _ _ hev
      · intro hp
        have hstate : alookup (syncStep now acc rid).1.rooms rid = some room := by
          simp [syncStep, syncOne, hlook, hp]
        have hev : Event.syncState rid room.playbackState now ∈
            (syncStep now acc rid).2 := by
          simp [syncStep, syncOne, hlook, hp]
        refine ⟨?_, ?_⟩
        · rw [List.foldl_cons, syncFold_state_not_mem now t _ rid hnotin]
          exact hstate
        · rw [List.foldl_cons]
          exact syncFold_events_mono now t _ _ hev
    · have hne : rid ≠ a := by
        rintro rfl
        exact (List.nodup_cons.mp hnd).1 hmem'
      have hlook' : alookup (syncStep now acc a).1.rooms rid = some room := by
        show alookup (syncOne now acc.1 a).1.rooms rid = some room
        rw [syncOne_state_other now acc.1 a rid hne]
        exact hlook
      exact ih (syncStep now acc a) rid room (List.nodup_cons.mp hnd).2 hmem' hlook'

/-! ## C2: periodic reconciliation -/

/-- C2.  On a periodic reconciliation tick, every stored room with at least
one live presence is handled: if playing, its position is advanced by
`(now - lastUpdated)/1000`, its timestamp set to `now`, and the new state is
broadcast; if paused, the state is broadcast unchanged.  Chaining the
playing-room checkpoint over ticks at `t0+3000`, `t0+6000`, `t0+9000`
starting from position 0 yields position exactly 9 with the timestamp
advancing on every tick. -/
theorem periodicSync_reconciliation :
    (∀ (st : ServerState) (now : ℤ) (roomId sid : String) (u : SocketUser)
       (room : Room),
       (sid, u) ∈ st.activeSockets → u.roomId = roomId →
       alookup st.rooms roomId = some room →
       ((room.playbackState.isPlaying = true →
           alookup (periodicSync st now).1.rooms roomId =
             some { room with playbackState := advancePlayback now room.playbackState } ∧
           Event.syncState roomId (advancePlayback now room.playbackState) now ∈
             (periodicSync st now).2) ∧
        (room.playbackState.isPlaying = false →
           alookup (periodicSync st now).1.rooms roomId = some room ∧
           Event.syncState roomId room.playbackState now ∈ (periodicSync st now).2))) ∧
    (∀ (t0 : ℤ) (ps : PlaybackState),
       ps.isPlaying = true → ps.currentTime = 0 → ps.lastUpdated = t0 →
       (advancePlayback (t0 + 3000) ps).currentTime = 3 ∧
       (advancePlayback (t0 + 3000) ps).lastUpdated = t0 + 3000 ∧
       (advancePlayback (t0 + 6000) (advancePlayback (t0 + 3000) ps)).currentTime = 6 ∧
       (advancePlayback (t0 + 6000) (advancePlayback (t0 + 3000) ps)).lastUpdated =
         t0 + 6000 ∧
       (advancePlayback (t0 + 9000)
           (advancePlayback (t0 + 6000) (advancePlayback (t0 + 3000) ps))).currentTime = 9 ∧
       (advancePlayback (t0 + 9000)
           (advancePlayback (t0 + 6000) (advancePlayback (t0 + 3000) ps))).lastUpdated =
         t0 + 9000) := by
  constructor
  · intro st now roomId sid u room hmem hroom hlook
    have hin : roomId ∈ activeRoomIds st := by
      unfold activeRoomIds
      rw [List.mem_dedup]
      exact List.mem_map.mpr ⟨(sid, u), hmem, hroom⟩
    exact syncFold_process now (activeRoomIds st) (st, []) roomId room
      (List.nodup_dedup _) hin hlook
  · intro t0 ps hplay hcur hlast
    refine ⟨?_, ?_, ?_, ?_, ?_, ?_⟩ <;>
      simp [advancePlayback, hcur, hlast] <;> push_cast <;> ring_nf


/-- C2 witness: a tick at 3500 ms on the live playing room `r` (position 42
as of 500 ms) stores and broadcasts the advanced checkpoint, and the 3-tick
chain from position 0 at `t0 = 0` reaches position 9 with timestamps 3000,
6000, 9000. -/
theorem periodicSync_reconciliation_witness :
    alookup (periodicSync stA 3500).1.rooms "r" =
      some { roomA with playbackState := advancePlayback 3500 psPlaying } ∧
    Event.syncState "r" (advancePlayback 3500 psPlaying) 3500 ∈ (periodicSync stA 3500).2 ∧
    (advancePlayback (0 + 9000)
        (advancePlayback (0 + 6000)
          (advancePlayback (0 + 3000)
            (PlaybackState.mk "" 0 true 0 "mp4")))).currentTime = 9 := by
  have h := (periodicSync_reconciliation.1 stA 3500 "r" "sh" hostUser roomA
    (by decide) rfl (by decide)).1 (by decide)
  have h2 := periodicSync_reconciliation.2 0 (PlaybackState.mk "" 0 true 0 "mp4")
    rfl rfl rfl
  exact ⟨h.1, h.2, h2.2.2.2.2.1⟩

end WatchTogether
